import Mathlib

/-!
Shallow embedding of the merge-and-normalize pipeline of
`src/data_cleaner.py` (NOAA storm-events cleaning).

Conventions of the embedding:
- a pandas scalar cell is a `CellVal` (`na` models `NaN`/`pd.NA`/`NaT`,
  `float` models a finite Python float as a rational, `int` a Python int,
  `str` a Python str);
- a pandas column is a `Col` (name, dtype tag, cell list) and a dataframe is
  a `List Col`; column-wise Series operations become `List.map`/`List.mapM`;
- operations that can raise return `Except PyErr`, with the error constructor
  naming the Python exception class;
- missing-value propagation of pandas arithmetic is written with `Option`.

The file is laid out as definitions first, theorems second.
-/

deriving instance DecidableEq for Except

namespace StormEvents

/-- Python exception classes that the embedded code can raise. -/
inductive PyErr
  | indexError
  | valueError
  | typeError
deriving DecidableEq

/-- A pandas scalar cell.  `na` stands for any missing marker
(`NaN`, `pd.NA`, `NaT`); a finite float is modelled as a rational. -/
inductive CellVal
  | na
  | int (n : ℤ)
  | float (q : ℚ)
  | str (s : String)
deriving DecidableEq

/-- The pandas dtypes that the cleaning code moves columns through. -/
inductive Dtype
  | object
  | float64
  | int64
  | nullableInt64
  | category
  | categoryOrdered
deriving DecidableEq

/-- A named pandas column: dtype tag plus cell values. -/
structure Col where
  name : String
  dtype : Dtype
  values : List CellVal
deriving DecidableEq

/-! ### Small Python string/number primitives used by the cleaner -/

/-- Strip the characters of `cs` from both ends of a character list,
as Python `str.strip(chars)` does: drop from the front, then from the back. -/
def stripChars (cs : List Char) (l : List Char) : List Char :=
  ((l.dropWhile (fun c => cs.contains c)).reverse.dropWhile
    (fun c => cs.contains c)).reverse

/-- The default whitespace set of Python `str.strip()` (ASCII part). -/
def wsChars : List Char := [' ', '\t', '\n', '\r', '\x0b', '\x0c']

/-- Python `str.strip()` with no argument: trim surrounding whitespace. -/
def pyStrip (s : String) : String := ⟨stripChars wsChars s.data⟩

/-- ASCII model of `Char.toUpper` as Python `str.upper` uses it
(the damage figures of this dataset are ASCII). -/
def charUpper (c : Char) : Char :=
  if 'a' ≤ c ∧ c ≤ 'z' then Char.ofNat (c.toNat - 32) else c

/-- Python `str.upper()`. -/
def pyToUpper (s : String) : String := ⟨s.data.map charUpper⟩

/-- Numeric value of a decimal digit character. -/
def digitVal (c : Char) : ℕ := c.toNat - 48

/-- Value of a digit-character list read as a base-10 numeral. -/
def digitsVal (l : List Char) : ℕ := l.foldl (fun a c => 10 * a + digitVal c) 0

/-- Split a character list at the dots, keeping empty pieces,
so that a decimal literal has at most one dot exactly when the result
has at most two pieces. -/
def splitDot : List Char → List (List Char)
  | [] => [[]]
  | c :: t =>
    if c = '.' then [] :: splitDot t
    else
      match splitDot t with
      | [] => [[c]]
      | h :: r => (c :: h) :: r

/-- Modelled Python `float(s)` on plain decimal literals, in exact form:
an optional sign, then digits with at most one decimal point and at least
one digit (`"25"`, `"2.5"`, `"1."`, `".5"`).  The result is returned as a
numerator and a power-of-ten denominator exponent, so the parse itself
stays inside kernel-computable integer arithmetic; any other shape — in
particular the empty string and non-numeric text, which raise `ValueError`
in Python — is `none`.  (The pipeline feeds `float` only suffix-trimmed
damage figures, which are plain decimal literals when numeric at all.) -/
def pyFloatParts (l : List Char) : Option (ℤ × ℕ) :=
  let sl : ℤ × List Char :=
    match l with
    | '+' :: t => (1, t)
    | '-' :: t => (-1, t)
    | t => (1, t)
  match splitDot sl.2 with
  | [a] =>
    if !a.isEmpty && a.all (fun c => c.isDigit) then
      some (sl.1 * (digitsVal a : ℤ), 0)
    else none
  | [a, b] =>
    if (!a.isEmpty || !b.isEmpty) && a.all (fun c => c.isDigit)
        && b.all (fun c => c.isDigit) then
      some (sl.1 * (digitsVal (a ++ b) : ℤ), b.length)
    else none
  | _ => none

/-- The rational value of a parsed decimal literal. -/
def ratOfParts (p : ℤ × ℕ) : ℚ := (p.1 : ℚ) / (10 : ℚ) ^ p.2

/-- Python `float(s)` as a rational. -/
def pyFloat (s : String) : Option ℚ := (pyFloatParts s.data).map ratOfParts

/-! ### Damage Normalizer: `parse_damage` (data_cleaner.py lines 139-156) -/

/-- The suffix dictionary `multipliers` of `parse_damage`
(`K`, `M`, `B` map to a thousand, a million, a billion). -/
def multipliers (c : Char) : Option ℕ :=
  if c = 'K' then some 1000
  else if c = 'M' then some 1000000
  else if c = 'B' then some 1000000000
  else none

/-- String analysis of `parse_damage` on a string input, kept ℚ-free:
`val = str(val).upper().strip()`, then `val[-1]` is looked up in the suffix
dictionary and the rest (or, with no suffix, all of `val`) goes through
`float`.  The result carries the parsed mantissa together with the suffix
multiplier (1 when there is no suffix).  Indexing `val[-1]` on an empty
string raises `IndexError`, which the function does not catch (its
`except` clauses cover only `ValueError` from `float`). -/
def parse_damage_core (s : String) : Except PyErr (Option (ℤ × ℕ × ℕ)) :=
  let v := pyStrip (pyToUpper s)
  if v.data.isEmpty then .error .indexError
  else
    match multipliers (v.data.getLastD ' ') with
    | some m => .ok ((pyFloatParts v.data.dropLast).map (fun p => (p.1, p.2, m)))
    | none => .ok ((pyFloatParts v.data).map (fun p => (p.1, p.2, 1)))

/-- `parse_damage` on a string input: the mantissa value times the suffix
multiplier, in dollars. -/
def parse_damage_str (s : String) : Except PyErr (Option ℚ) :=
  (parse_damage_core s).map
    (Option.map (fun p => ratOfParts (p.1, p.2.1) * (p.2.2 : ℚ)))

/-- `parse_damage` on an arbitrary cell.  `pd.isna` sends a missing cell to
`pd.NA`; a float or int cell goes through `str(val)` and back through
`float`, and since the decimal representation of a finite float or of an
int never ends in `K`, `M` or `B` and round-trips through `float`,
the numeric value is returned unchanged; a string cell runs the
string logic. -/
def parse_damage : CellVal → Except PyErr (Option ℚ)
  | .na => .ok none
  | .float q => .ok (some q)
  | .int n => .ok (some (n : ℚ))
  | .str s => parse_damage_str s

/-! ### Damage Normalizer: total damage (data_cleaner.py lines 164-167) -/

/-- `Series.fillna(0)` on one cell of a parsed damage column. -/
def fillna0 (v : Option ℚ) : ℚ := v.getD 0

/-- `Series.replace(0, pd.NA)` on one cell of the summed damage column. -/
def replaceZeroNA (q : ℚ) : Option ℚ := if q = 0 then none else some q

/-- One cell of `TOTAL_DAMAGE`:
`DAMAGE_PROPERTY.fillna(0) + DAMAGE_CROPS.fillna(0)`, then the
`replace(0, pd.NA)` step. -/
def totalDamage (p c : Option ℚ) : Option ℚ :=
  replaceZeroNA (fillna0 p + fillna0 c)

/-! ### Temporal Normalizer: duration (data_cleaner.py lines 63-71) -/

/-- A parsed `BEGIN_DATE_TIME` / `END_DATE_TIME` value: a civil calendar
date plus a second-of-day offset.  A cell that `pd.to_datetime(...,
errors="coerce")` could not parse is `NaT`, written `none` at the use
sites. -/
structure Timestamp where
  year : ℤ
  month : ℤ
  day : ℤ
  secs : ℤ
deriving DecidableEq

/-- The day ordinal of a timestamp floored to its day, as
`Series.dt.floor("D")` produces it: the civil date mapped to days since
1970-01-01 by the standard civil-from-days algorithm, the time of day
discarded.  Integer division is truncation toward zero, which agrees with
the reference algorithm on the quantities involved. -/
def floorDay (t : Timestamp) : ℤ :=
  let y := if t.month ≤ 2 then t.year - 1 else t.year
  let era := (if 0 ≤ y then y else y - 399) / 400
  let yoe := y - era * 400
  let mp := if 2 < t.month then t.month - 3 else t.month + 9
  let doy := (153 * mp + 2) / 5 + t.day - 1
  let doe := yoe * 365 + yoe / 4 - yoe / 100 + doy
  era * 146097 + doe - 719468

/-- Subtraction of two floored timestamp columns in days:
`(ed - bd).dt.days`, with `NaT` propagating to a missing difference. -/
def subDays (e b : Option ℤ) : Option ℤ :=
  match e, b with
  | some x, some y => some (x - y)
  | _, _ => none

/-- One cell of `DURATION_DAYS`: `(ed - bd).dt.days + 1` where `bd` and
`ed` are the begin/end timestamps floored to the day; the `+ 1` also
propagates missing. -/
def durationDays (b e : Option Timestamp) : Option ℤ :=
  (subDays (Option.map floorDay e) (Option.map floorDay b)).map (fun d => d + 1)

/-! ### Temporal Normalizer: month extraction (data_cleaner.py lines 51-61) -/

/-- The value of `str(n)[-2:]` read back by `int(...)` for a nonnegative
composite: the decimal string of `n` sliced to its last two characters is
its lowest two decimal digits (the whole numeral when it has fewer than
two digits), here recomposed from the base-10 digit list. -/
def lastTwoDigits (n : ℕ) : ℕ := Nat.ofDigits 10 ((Nat.digits 10 n).take 2)

/-- `BEGIN_MONTH` / `END_MONTH` from the `BEGIN_YEARMONTH` /
`END_YEARMONTH` composite (a nonnegative `YYYYMM` integer):
`astype(str).str[-2:].astype(int)`. -/
def monthOfYearMonth (ym : ℕ) : ℕ := lastTwoDigits ym

/-- Python list indexing `l[i]`: negative indices count from the back and
an index out of range raises `IndexError`. -/
def pyListGet (l : List String) (i : ℤ) : Except PyErr String :=
  let j := if i < 0 then i + l.length else i
  if 0 ≤ j ∧ j < (l.length : ℤ) then .ok (l.getD j.toNat ("")) else .error .indexError

/-- `calendar.month_abbr`: a 13-entry sequence whose slot 0 is the empty
string. -/
def month_abbr : List String :=
  [(""), ("Jan"), ("Feb"), ("Mar"), ("Apr"), ("May"), ("Jun"), ("Jul"),
   ("Aug"), ("Sep"), ("Oct"), ("Nov"), ("Dec")]

/-- The `BEGIN_MONTH_NAME` lookup `calendar.month_abbr[x]` applied to one
begin-month value. -/
def beginMonthName (m : ℕ) : Except PyErr String := pyListGet month_abbr (m : ℤ)

/-! ### Merger (data_cleaner.py lines 202-204) -/

/-- A row of the details table: its `EVENT_ID` key and an abstract payload
standing for the remaining event-level fields. -/
structure DRow where
  event_id : Option ℤ
  payload : ℕ
deriving DecidableEq

/-- A row of the fatalities table: its `EVENT_ID` foreign key and
`FATALITY_ID`. -/
structure FRow where
  event_id : Option ℤ
  fatality_id : Option ℤ
deriving DecidableEq

/-- A row of the locations table: its `EVENT_ID` foreign key and
`EPISODE_ID`. -/
structure LRow where
  event_id : Option ℤ
  episode_id : Option ℤ
deriving DecidableEq

/-- `left.merge(right, on=key, how="left")`: each left row is repeated
once per matching right row, and kept once with null right fields when
nothing matches.  Key comparison is `==` on `Option`, which lets a missing
key match a missing key, as pandas `merge` matches `NaN` keys to each
other. -/
def leftJoin {α β : Type} (ls : List α) (rs : List β)
    (ka : α → Option ℤ) (kb : β → Option ℤ) : List (α × Option β) :=
  ls.flatMap (fun l =>
    match rs.filter (fun r => ka l == kb r) with
    | [] => [(l, none)]
    | m => m.map (fun r => (l, some r)))

/-- The Merger: `df_d.merge(df_f, on="EVENT_ID", how="left")` followed by
`.merge(df_l, on="EVENT_ID", how="left")`. -/
def mergeYear (dets : List DRow) (fats : List FRow) (locs : List LRow) :
    List ((DRow × Option FRow) × Option LRow) :=
  leftJoin (leftJoin dets fats (fun d => d.event_id) (fun f => f.event_id))
    locs (fun p => p.1.event_id) (fun l => l.event_id)

/-- The `EVENT_ID` of a merged row, which the left joins take from the
details side. -/
def mergedEventId (r : (DRow × Option FRow) × Option LRow) : Option ℤ :=
  r.1.1.event_id

/-! ### Location Normalizer: label (data_cleaner.py lines 118-123) -/

/-- The strip set of `str.strip(", ")` on the label column. -/
def csChars : List Char := [',', ' ']

/-- One cell of `LOCATION_LABEL`:
`(BEGIN_LOCATION.fillna("") + ", " + CZ_NAME.astype(str) + ", " +
STATE.astype(str)).str.strip(", ")`.  The zone name and state are taken
after `astype(str)`, so they enter as plain strings. -/
def locationLabel (beginLoc : Option String) (czName state : String) : String :=
  ⟨stripChars csChars (((beginLoc.getD ("")) ++ ", " ++ czName ++ ", " ++ state).data)⟩

/-- Joining string parts with a comma-space separator. -/
def joinParts : List String → String
  | [] => ""
  | [p] => p
  | p :: rest => p ++ ", " ++ joinParts rest

/-- The label as the claim words it: the non-empty parts joined
with `", "`. -/
def joinNonEmptyParts (parts : List String) : String :=
  joinParts (parts.filter (fun p => !(p == "")))

/-- A string neither starts nor ends with a comma or a space.  Realistic
location fields (`"COOK"`, `"IL"`, `"EAST SPRINGFIELD"`) satisfy this. -/
def edgeClean (s : String) : Bool :=
  (match s.data.head? with
   | none => true
   | some c => !csChars.contains c) &&
  (match s.data.getLast? with
   | none => true
   | some c => !csChars.contains c)

/-! ### Location Normalizer: columns (data_cleaner.py lines 107-116) -/

/-- A location column: dtype tag plus optional-string cells. -/
structure SCol where
  dtype : Dtype
  values : List (Option String)
deriving DecidableEq

/-- `astype("category")` on a string column: the dtype becomes category,
the values are unchanged. -/
def astypeCategoryS (c : SCol) : SCol := ⟨.category, c.values⟩

/-- The `CZ_TYPE` dictionary lookup of `Series.map({...})`: a value other
than C or Z, a missing value included, maps to missing. -/
def czTypeLookup (v : Option String) : Option String :=
  v.bind (fun s => if s = "C" then some ("County")
    else if s = "Z" then some ("Zone") else none)

/-- `Series.map` with a dict: an object Series of looked-up values. -/
def mapCZType (c : SCol) : SCol := ⟨.object, c.values.map czTypeLookup⟩

/-- The `.str.strip()` accessor call on a Series: pandas applies the string
operation valuewise (missing stays missing) and returns an object Series
even when the input column is categorical. -/
def strStripS (c : SCol) : SCol := ⟨.object, c.values.map (Option.map pyStrip)⟩

/-- `STATE` through `clean_location_cols`: the category cast of line 110. -/
def cleanState (c : SCol) : SCol := astypeCategoryS c

/-- `CZ_NAME` through `clean_location_cols`: the category cast of
line 110. -/
def cleanCzName (c : SCol) : SCol := astypeCategoryS c

/-- `CZ_TYPE` through `clean_location_cols`: the category cast of line 110,
then line 113 maps the codes and casts the result back to category. -/
def cleanCzType (c : SCol) : SCol :=
  astypeCategoryS (mapCZType (astypeCategoryS c))

/-- `BEGIN_LOCATION` through `clean_location_cols`: the category cast of
line 110, then line 116 overwrites the column with the `.str.strip()`
result, an object Series. -/
def cleanBeginLocation (c : SCol) : SCol := strStripS (astypeCategoryS c)

/-! ### Dataframe operations shared by the Identifier and Damage
Normalizers -/

/-- A fallible loop over the columns (or cells) of a frame, propagating
the first raised exception, as a Python `for` loop of fallible
assignments does. -/
def mapE {α β : Type} (f : α → Except PyErr β) : List α → Except PyErr (List β)
  | [] => .ok []
  | x :: t => do
    let y ← f x
    let ys ← mapE f t
    pure (y :: ys)

/-- The column names of a dataframe. -/
def colNames (df : List Col) : List String := df.map (fun c => c.name)

/-- Membership test `n in df.columns`. -/
def hasCol (df : List Col) (n : String) : Bool := df.any (fun c => c.name == n)

/-- `df.rename(columns={old: new})`. -/
def renameCol (old new : String) (df : List Col) : List Col :=
  df.map (fun c => if c.name = old then ⟨new, c.dtype, c.values⟩ else c)

/-- `df.drop(columns=[n])`. -/
def dropCol (n : String) (df : List Col) : List Col :=
  df.filter (fun c => !(c.name == n))

/-- `df.drop(columns=ns, errors="ignore")`. -/
def dropCols (ns : List String) (df : List Col) : List Col :=
  df.filter (fun c => !(ns.contains c.name))

/-- Does a column name end in the token ID after an underscore, i.e.
`re.search(r"_ID$", col.upper())`?  Spelt on the character list: the last
three characters of the uppercased name are underscore, I, D. -/
def isIdCol (n : String) : Bool :=
  ((pyToUpper n).data).drop ((pyToUpper n).data.length - 3) == ['_', 'I', 'D']

/-! ### Identifier Normalizer (data_cleaner.py lines 19-35) -/

/-- `astype("Int64")` on one cell: missing stays missing, an integral
float loses its float artifact, a non-integral float or a string raises. -/
def astypeInt64Cell : CellVal → Except PyErr CellVal
  | .na => .ok .na
  | .int n => .ok (.int n)
  | .float q => if q.den = 1 then .ok (.int q.num) else .error .typeError
  | .str _ => .error .typeError

/-- Total description of the `Int64` cast on the cells it accepts. -/
def int64CastD : CellVal → CellVal
  | .na => .na
  | .int n => .int n
  | .float q => .int q.num
  | .str s => .str s

/-- The cells on which `astype("Int64")` succeeds. -/
def int64Castable : CellVal → Bool
  | .na => true
  | .int _ => true
  | .float q => q.den = 1
  | .str _ => false

/-- `astype("Int64")` on a column. -/
def astypeInt64Col (c : Col) : Except PyErr Col := do
  let vs ← mapE astypeInt64Cell c.values
  pure ⟨c.name, .nullableInt64, vs⟩

/-- `astype("category")` on a `Col`. -/
def astypeCategoryCol (c : Col) : Col := ⟨c.name, .category, c.values⟩

/-- The per-column body of the ID loop of lines 33-35: an ID column goes
through `Int64` and then category, any other column is untouched. -/
def idCastCol (c : Col) : Except PyErr Col :=
  if isIdCol c.name then do
    let c1 ← astypeInt64Col c
    pure (astypeCategoryCol c1)
  else pure c

/-- The result of the ID loop on one column when the casts succeed. -/
def idCastResult (c : Col) : Col :=
  if isIdCol c.name then ⟨c.name, .category, c.values.map int64CastD⟩ else c

/-- `clean_id_cols`: when both `EPISODE_ID_x` and `EPISODE_ID_y` are
present, rename the first to `EPISODE_ID` and drop the second; then run
the ID-column loop. -/
def clean_id_cols (df : List Col) : Except PyErr (List Col) :=
  let df1 := if hasCol df ("EPISODE_ID_x") && hasCol df ("EPISODE_ID_y")
             then dropCol ("EPISODE_ID_y")
               (renameCol ("EPISODE_ID_x") ("EPISODE_ID") df)
             else df
  mapE idCastCol df1

/-! ### Damage Normalizer as a frame transform
(data_cleaner.py lines 127-167) -/

/-- The fatality-detail columns dropped by the Damage Normalizer. -/
def fatalityNoiseCols : List String :=
  [("FATALITY_TYPE"), ("FATALITY_AGE"), ("FATALITY_SEX")]

/-- The two damage amount columns. -/
def damage_amount_cols : List String :=
  [("DAMAGE_CROPS"), ("DAMAGE_PROPERTY")]

/-- The cell written back after `map(parse_damage)` and
`pd.to_numeric(errors="coerce")`. -/
def parsedCell (r : Option ℚ) : CellVal :=
  match r with
  | none => .na
  | some q => .float q

/-- `parse_damage` on one cell followed by the numeric coercion. -/
def parseDamageCell (v : CellVal) : Except PyErr CellVal := do
  let r ← parse_damage v
  pure (parsedCell r)

/-- Total description of `parseDamageCell` on cells where it succeeds. -/
def parseCellD (v : CellVal) : CellVal :=
  match parse_damage v with
  | .ok r => parsedCell r
  | .error _ => .na

/-- `df[col] = df[col].map(parse_damage)` then `pd.to_numeric`: a float
column of parsed amounts. -/
def parseDamageCol (c : Col) : Except PyErr Col := do
  let vs ← mapE parseDamageCell c.values
  pure ⟨c.name, .float64, vs⟩

/-- The per-column parse step of lines 160-163: only a column named in
`damage_amount_cols` is parsed. -/
def damageStepCol (c : Col) : Except PyErr Col :=
  if damage_amount_cols.contains c.name then parseDamageCol c else pure c

/-- The result of the per-column parse step when it succeeds. -/
def damageStepResult (c : Col) : Col :=
  if damage_amount_cols.contains c.name then
    ⟨c.name, .float64, c.values.map parseCellD⟩
  else c

/-- The numeric value of a parsed damage cell (missing for NA). -/
def cellToOptQ : CellVal → Option ℚ
  | .na => none
  | .int n => some (n : ℚ)
  | .float q => some q
  | .str _ => none

/-- One `TOTAL_DAMAGE` cell from a property cell and a crop cell. -/
def totalDamageCell (p c : CellVal) : CellVal :=
  match totalDamage (cellToOptQ p) (cellToOptQ c) with
  | none => .na
  | some q => .float q

/-- The values of a named column (empty when absent). -/
def getColValues (df : List Col) (n : String) : List CellVal :=
  match df.find? (fun c => c.name == n) with
  | some c => c.values
  | none => []

/-- `clean_damage_cols`: drop the fatality-detail noise columns, parse
each damage column that is present, and append `TOTAL_DAMAGE` exactly when
both damage columns are present.  The dtype tag of the appended column is
irrelevant to the claims and recorded as object (`replace(0, pd.NA)` mixes
floats and NA). -/
def clean_damage_cols (df : List Col) : Except PyErr (List Col) := do
  let df1 ← mapE damageStepCol (dropCols fatalityNoiseCols df)
  if damage_amount_cols.all (fun n => hasCol df1 n) then
    pure (df1 ++ [⟨("TOTAL_DAMAGE"), .object,
      List.zipWith totalDamageCell (getColValues df1 ("DAMAGE_PROPERTY"))
        (getColValues df1 ("DAMAGE_CROPS"))⟩])
  else
    pure df1

/-- The Except-free description of `clean_damage_cols` on inputs where
all the parses succeed. -/
def cleanDamageResult (df : List Col) : List Col :=
  if damage_amount_cols.all
      (fun n => hasCol ((dropCols fatalityNoiseCols df).map damageStepResult) n) then
    ((dropCols fatalityNoiseCols df).map damageStepResult) ++
      [⟨("TOTAL_DAMAGE"), .object,
        List.zipWith totalDamageCell
          (getColValues ((dropCols fatalityNoiseCols df).map damageStepResult)
            ("DAMAGE_PROPERTY"))
          (getColValues ((dropCols fatalityNoiseCols df).map damageStepResult)
            ("DAMAGE_CROPS"))⟩]
  else (dropCols fatalityNoiseCols df).map damageStepResult

/-! ### Temporal Normalizer: the ordered month-name categorical
(data_cleaner.py lines 56-61) -/

/-- The ordered categories Jan..Dec of `BEGIN_MONTH_NAME`. -/
def monthAbbrCategories : List String :=
  [("Jan"), ("Feb"), ("Mar"), ("Apr"), ("May"), ("Jun"), ("Jul"),
   ("Aug"), ("Sep"), ("Oct"), ("Nov"), ("Dec")]

/-- One cell through `pd.Categorical(values, categories=Jan..Dec,
ordered=True)`: a value among the categories is kept, anything else
becomes missing. -/
def monthNameCat (v : Option String) : Option String :=
  v.bind (fun s => if monthAbbrCategories.contains s then some s else none)

/-- A tiny merged frame exercising the Identifier Normalizer: the
duplicate episode-id pair, an event id and a text column. -/
def idWitnessDf : List Col :=
  [⟨("EPISODE_ID_x"), .float64, [.int 5, .na]⟩,
   ⟨("EPISODE_ID_y"), .float64, [.int 5, .na]⟩,
   ⟨("EVENT_ID"), .int64, [.int 1, .int 2]⟩,
   ⟨("STATE"), .object, [.str ("IL"), .na]⟩]

/-- A tiny frame exercising the Damage Normalizer: both damage columns and
one fatality-noise column. -/
def damageWitnessDf : List Col :=
  [⟨("DAMAGE_PROPERTY"), .object, [.str ("25K"), .na]⟩,
   ⟨("DAMAGE_CROPS"), .object, [.na, .str ("3")]⟩,
   ⟨("FATALITY_AGE"), .int64, [.int 30, .int 40]⟩]

/-! ### Theorems -/

/-- C1: the damage-amount parser maps `"25K"` to 25000, `"2.5M"` to 2500000,
`"100B"` to 1e11, a missing cell to missing, and the unparseable `"abc"` to
missing — but, contrary to the claim that an empty input yields a missing
value and that the parser never raises, `parse_damage` on the empty string
reaches `val[-1]` on an empty `val` and raises `IndexError`. -/
theorem parse_damage_claim_cases :
    parse_damage (.str ("25K")) = .ok (some 25000) ∧
    parse_damage (.str ("2.5M")) = .ok (some 2500000) ∧
    parse_damage (.str ("100B")) = .ok (some 100000000000) ∧
    parse_damage CellVal.na = .ok none ∧
    parse_damage (.str ("abc")) = .ok none ∧
    parse_damage (.str ("")) = .error .indexError := by
  refine ⟨?_, ?_, ?_, rfl, ?_, ?_⟩
  · have h : parse_damage_core ("25K") = .ok (some (25, 0, 1000)) := by decide
    simp [parse_damage, parse_damage_str, h, ratOfParts, Except.map]
    norm_num
  · have h : parse_damage_core ("2.5M") = .ok (some (25, 1, 1000000)) := by decide
    simp [parse_damage, parse_damage_str, h, ratOfParts, Except.map]
    norm_num
  · have h : parse_damage_core ("100B") = .ok (some (100, 0, 1000000000)) := by
      decide
    simp [parse_damage, parse_damage_str, h, ratOfParts, Except.map]
    norm_num
  · have h : parse_damage_core ("abc") = .ok none := by decide
    simp [parse_damage, parse_damage_str, h, Except.map]
  · have h : parse_damage_core ("") = .error .indexError := by decide
    simp [parse_damage, parse_damage_str, h, Except.map]

/-- C3: the total-damage cell is missing exactly when the sum of the two
parsed amounts (missing read as zero) is exactly zero, and otherwise holds
that sum. -/
theorem totalDamage_claim : ∀ p c : Option ℚ,
    (totalDamage p c = none ↔ p.getD 0 + c.getD 0 = 0) ∧
    (p.getD 0 + c.getD 0 ≠ 0 → totalDamage p c = some (p.getD 0 + c.getD 0)) := by
  intro p c
  unfold totalDamage fillna0 replaceZeroNA
  split <;> simp_all

/-- Witness for C3: zero property and zero crop damage give a missing total,
while 10 plus missing gives 10. -/
theorem totalDamage_claim_witness :
    totalDamage (some 10) none = some 10 ∧ totalDamage (some 0) (some 0) = none := by
  constructor
  · have h := (totalDamage_claim (some 10) none).2 (by norm_num)
    simpa using h
  · exact (totalDamage_claim (some 0) (some 0)).1.mpr (by norm_num)

/-- C2 (amended): duration is missing exactly when a begin or end timestamp
is missing; when both are present it equals the inclusive day count
(end day minus begin day, plus one), which is at least 1 whenever the begin
day is not after the end day; a same-day event has duration 1 and the span
2001-03-30 to 2001-04-01 has duration 3, with month and year boundaries
computed by true date arithmetic. -/
theorem durationDays_amended :
    (∀ b e : Option Timestamp, durationDays b e = none ↔ b = none ∨ e = none) ∧
    (∀ tb te : Timestamp,
      durationDays (some tb) (some te) = some (floorDay te - floorDay tb + 1)) ∧
    (∀ tb te : Timestamp, floorDay tb ≤ floorDay te →
      ∀ d : ℤ, durationDays (some tb) (some te) = some d → 1 ≤ d) ∧
    durationDays (some ⟨2001, 3, 30, 600⟩) (some ⟨2001, 4, 1, 0⟩) = some 3 ∧
    durationDays (some ⟨2001, 3, 30, 0⟩) (some ⟨2001, 3, 30, 86399⟩) = some 1 ∧
    durationDays (some ⟨2000, 12, 31, 0⟩) (some ⟨2001, 1, 1, 0⟩) = some 2 := by
  refine ⟨?_, ?_, ?_, by decide, by decide, by decide⟩
  · intro b e
    cases b <;> cases e <;> simp [durationDays, subDays]
  · intro tb te
    simp [durationDays, subDays]
  · intro tb te hle d hd
    simp [durationDays, subDays] at hd
    omega

/-- Counterexample to C2 as stated: with the begin timestamp after the end
timestamp (begin 2001-04-01, end 2001-03-30) both endpoints are present,
yet the computed duration is -1, which is not at least 1. -/
theorem durationDays_reversed_counterexample :
    durationDays (some ⟨2001, 4, 1, 0⟩) (some ⟨2001, 3, 30, 0⟩) = some (-1) ∧
    ¬ (1 : ℤ) ≤ -1 := by decide

/-- Witness for C2 (amended): on the concrete span 2001-03-30 to 2001-04-01
the duration is 3 and at least 1. -/
theorem durationDays_amended_witness :
    durationDays (some ⟨2001, 3, 30, 0⟩) (some ⟨2001, 4, 1, 0⟩) = some 3 ∧
    (1 : ℤ) ≤ 3 := by
  have h3 := durationDays_amended.2.2.1 ⟨2001, 3, 30, 0⟩ ⟨2001, 4, 1, 0⟩
    (by decide) 3 (by decide)
  exact ⟨by decide, h3⟩

/-- The last two decimal digits of a natural number are its value mod 100. -/
theorem lastTwoDigits_mod (n : ℕ) : lastTwoDigits n = n % 100 := by
  unfold lastTwoDigits
  rcases Nat.eq_zero_or_pos n with h0 | h1
  · subst h0; simp
  · rw [Nat.digits_def' (by norm_num : (1:ℕ) < 10) h1]
    rcases Nat.eq_zero_or_pos (n / 10) with h2 | h3
    · rw [h2]
      simp [Nat.ofDigits_cons, Nat.ofDigits_nil]
      omega
    · rw [Nat.digits_def' (by norm_num : (1:ℕ) < 10) h3]
      simp [List.take, Nat.ofDigits_cons, Nat.ofDigits_nil]
      omega

/-- C5: begin/end month is extracted as the last two decimal digits of the
year-month composite; a value outside 1..12 is returned verbatim — never
clamped, nulled or replaced — and a begin month above 12 surfaces loudly as
an `IndexError` in the month-name lookup rather than being masked. -/
theorem beginMonth_claim :
    (∀ ym : ℕ, monthOfYearMonth ym = ym % 100) ∧
    (∀ ym : ℕ, 12 < ym % 100 → monthOfYearMonth ym = ym % 100) ∧
    (∀ m : ℕ, 12 < m → beginMonthName m = .error .indexError) := by
  refine ⟨fun ym => lastTwoDigits_mod ym, fun ym _ => lastTwoDigits_mod ym, ?_⟩
  intro m hm
  unfold beginMonthName pyListGet month_abbr
  simp only [List.length_cons, List.length_nil]
  split_ifs with h1 h2 <;> first | rfl | (exfalso; omega)

/-- Witness for C5: the composite 200113 yields the out-of-range month 13
verbatim, and the month-name lookup at 13 raises. -/
theorem beginMonth_claim_witness :
    monthOfYearMonth 200113 = 13 ∧ beginMonthName 13 = .error .indexError :=
  ⟨(beginMonth_claim.2.1 200113 (by norm_num)).trans (by norm_num),
   beginMonth_claim.2.2 13 (by norm_num)⟩

/-- Every row of a left join comes from a left-side row. -/
theorem leftJoin_mem_left {α β : Type} {ls : List α} {rs : List β}
    {ka : α → Option ℤ} {kb : β → Option ℤ} {p : α × Option β}
    (hp : p ∈ leftJoin ls rs ka kb) : p.1 ∈ ls := by
  unfold leftJoin at hp
  rw [List.mem_flatMap] at hp
  obtain ⟨l, hl, hpl⟩ := hp
  revert hpl
  split
  · intro h; simp at h; subst h; exact hl
  · intro h
    rw [List.mem_map] at h
    obtain ⟨r, _, hr⟩ := h
    rw [← hr]; exact hl

/-- Every left-side row survives into at least one row of a left join. -/
theorem leftJoin_exists_left {α β : Type} {ls : List α} (rs : List β)
    (ka : α → Option ℤ) (kb : β → Option ℤ) {l : α} (hl : l ∈ ls) :
    ∃ p ∈ leftJoin ls rs ka kb, p.1 = l := by
  unfold leftJoin
  cases hf : rs.filter (fun r => ka l == kb r) with
  | nil =>
    refine ⟨(l, none), ?_, rfl⟩
    rw [List.mem_flatMap]
    exact ⟨l, hl, by rw [hf]; simp⟩
  | cons r m =>
    refine ⟨(l, some r), ?_, rfl⟩
    rw [List.mem_flatMap]
    refine ⟨l, hl, ?_⟩
    rw [hf]
    simp

/-- A join row whose key matches no right-side row carries null right
fields. -/
theorem leftJoin_no_match {α β : Type} {ls : List α} {rs : List β}
    {ka : α → Option ℤ} {kb : β → Option ℤ} {p : α × Option β}
    (hp : p ∈ leftJoin ls rs ka kb)
    (hno : ∀ r ∈ rs, (ka p.1 == kb r) = false) : p.2 = none := by
  unfold leftJoin at hp
  rw [List.mem_flatMap] at hp
  obtain ⟨l, hl, hpl⟩ := hp
  revert hpl
  split
  · intro h; simp at h; subst h; rfl
  · intro h
    rw [List.mem_map] at h
    obtain ⟨r, hrm, hr⟩ := h
    rw [List.mem_filter] at hrm
    have hl1 : p.1 = l := by rw [← hr]
    have h1 := hrm.2
    rw [← hl1] at h1
    rw [hno r hrm.1] at h1
    exact Bool.noConfusion h1

/-- C4: the Merger is two successive left outer joins on the event
identifier, so every detail row appears at least once in the merged
output, a merged row with no matching fatality (resp. location) row has a
null fatality (resp. location) side, and — when every detail row carries a
non-null event identifier, as a valid period input does — every merged row
has a non-null event identifier. -/
theorem mergeYear_claim :
    ∀ (dets : List DRow) (fats : List FRow) (locs : List LRow),
    (∀ d ∈ dets, ∃ r ∈ mergeYear dets fats locs, r.1.1 = d) ∧
    (∀ r ∈ mergeYear dets fats locs,
      ((∀ f ∈ fats, (r.1.1.event_id == f.event_id) = false) → r.1.2 = none) ∧
      ((∀ l ∈ locs, (r.1.1.event_id == l.event_id) = false) → r.2 = none)) ∧
    ((∀ d ∈ dets, (d.event_id).isSome = true) →
      ∀ r ∈ mergeYear dets fats locs, (mergedEventId r).isSome = true) := by
  intro dets fats locs
  refine ⟨?_, ?_, ?_⟩
  · intro d hd
    obtain ⟨p, hp, hp1⟩ := leftJoin_exists_left fats
      (fun d => d.event_id) (fun f => f.event_id) hd
    obtain ⟨r, hr, hr1⟩ := leftJoin_exists_left locs
      (fun p => p.1.event_id) (fun l => l.event_id) hp
    exact ⟨r, hr, by rw [hr1, hp1]⟩
  · intro r hr
    constructor
    · intro hno
      exact leftJoin_no_match (leftJoin_mem_left hr) hno
    · intro hno
      exact leftJoin_no_match hr hno
  · intro hids r hr
    exact hids r.1.1 (leftJoin_mem_left (leftJoin_mem_left hr))

/-- Witness for C4: a one-row details table with event id 1, no
fatalities and one matching location merges to a row whose event
identifier is present. -/
theorem mergeYear_claim_witness :
    (mergedEventId ((⟨⟨some 1, 0⟩, none⟩ : DRow × Option FRow),
      some (⟨some 1, some 7⟩ : LRow))).isSome = true :=
  (mergeYear_claim ([⟨some 1, 0⟩]) ([]) ([⟨some 1, some 7⟩])).2.2
    (by decide) _ (by decide)

/-- Dropping a strippable prelude of a list leaves the tail drop. -/
theorem dropWhile_append_all {cs : List Char} {a l : List Char}
    (ha : a.all (fun c => cs.contains c) = true) :
    (a ++ l).dropWhile (fun c => cs.contains c) =
      l.dropWhile (fun c => cs.contains c) := by
  induction a with
  | nil => rfl
  | cons c t ih =>
    simp only [List.all_cons, Bool.and_eq_true] at ha
    simp only [List.cons_append, List.dropWhile_cons_of_pos ha.1]
    exact ih ha.2

/-- A list whose head is not strippable is left intact by `dropWhile`. -/
theorem dropWhile_head_clean {cs : List Char} {l : List Char}
    (h : ∀ c, l.head? = some c → cs.contains c = false) :
    l.dropWhile (fun c => cs.contains c) = l := by
  cases l with
  | nil => rfl
  | cons c t =>
    have hc := h c rfl
    rw [List.dropWhile_cons_of_neg]
    simpa using hc

/-- A fully strippable list drops to nothing. -/
theorem dropWhile_all_nil {cs : List Char} {b : List Char}
    (hb : b.all (fun c => cs.contains c) = true) :
    b.dropWhile (fun c => cs.contains c) = [] := by
  rw [List.dropWhile_eq_nil_iff]
  intro x hx
  exact (List.all_eq_true.mp hb) x hx

/-- Stripping removes exactly a strippable prelude and a strippable tail
around a middle whose two ends are not strippable. -/
theorem stripChars_sandwich (cs a b m : List Char)
    (ha : a.all (fun c => cs.contains c) = true)
    (hb : b.all (fun c => cs.contains c) = true)
    (hm1 : ∀ c, m.head? = some c → cs.contains c = false)
    (hm2 : ∀ c, m.getLast? = some c → cs.contains c = false) :
    stripChars cs (a ++ m ++ b) = m := by
  unfold stripChars
  rw [List.append_assoc, dropWhile_append_all ha]
  cases m with
  | nil =>
    simp only [List.nil_append]
    rw [dropWhile_all_nil hb]
    rfl
  | cons c t =>
    rw [dropWhile_head_clean (l := (c :: t) ++ b) ?hd]
    case hd =>
      intro x hx
      simp at hx
      subst hx
      exact hm1 c rfl
    rw [List.reverse_append, dropWhile_append_all (by simpa using hb)]
    rw [dropWhile_head_clean ?hd2]
    · simp
    case hd2 =>
      intro x hx
      rw [List.head?_reverse] at hx
      exact hm2 x hx

/-- Stripping a comma-space-clean list is the identity. -/
theorem stripCS_id {m : List Char}
    (hm1 : ∀ c, m.head? = some c → csChars.contains c = false)
    (hm2 : ∀ c, m.getLast? = some c → csChars.contains c = false) :
    stripChars csChars m = m := by
  have h := stripChars_sandwich csChars [] [] m (by decide) (by decide) hm1 hm2
  simpa using h

/-- Stripping removes a leading comma-space before a clean middle. -/
theorem stripCS_left {m : List Char}
    (hm1 : ∀ c, m.head? = some c → csChars.contains c = false)
    (hm2 : ∀ c, m.getLast? = some c → csChars.contains c = false) :
    stripChars csChars ([',', ' '] ++ m) = m := by
  have h := stripChars_sandwich csChars [',', ' '] [] m (by decide) (by decide)
    hm1 hm2
  simpa using h

/-- Stripping removes a trailing comma-space after a clean middle. -/
theorem stripCS_right {m : List Char}
    (hm1 : ∀ c, m.head? = some c → csChars.contains c = false)
    (hm2 : ∀ c, m.getLast? = some c → csChars.contains c = false) :
    stripChars csChars (m ++ [',', ' ']) = m := by
  have h := stripChars_sandwich csChars [] [',', ' '] m (by decide) (by decide)
    hm1 hm2
  simpa using h

/-- Stripping removes a comma-space on both sides of a clean middle. -/
theorem stripCS_both {m : List Char}
    (hm1 : ∀ c, m.head? = some c → csChars.contains c = false)
    (hm2 : ∀ c, m.getLast? = some c → csChars.contains c = false) :
    stripChars csChars ([',', ' '] ++ m ++ [',', ' ']) = m :=
  stripChars_sandwich csChars [',', ' '] [',', ' '] m (by decide) (by decide)
    hm1 hm2

/-- A character list equal to the data of a string rebuilds that string. -/
theorem mk_eq_of_data {x : List Char} {s : String} (h : x = s.data) :
    (⟨x⟩ : String) = s := by
  subst h; rfl

/-- The head of an edge-clean string is not strippable. -/
theorem edgeClean_head {s : String} (h : edgeClean s = true) :
    ∀ c, s.data.head? = some c → csChars.contains c = false := by
  intro c hc
  unfold edgeClean at h
  rw [Bool.and_eq_true] at h
  have h1 := h.1
  rw [hc] at h1
  simpa using h1

/-- The last character of an edge-clean string is not strippable. -/
theorem edgeClean_last {s : String} (h : edgeClean s = true) :
    ∀ c, s.data.getLast? = some c → csChars.contains c = false := by
  intro c hc
  unfold edgeClean at h
  rw [Bool.and_eq_true] at h
  have h2 := h.2
  rw [hc] at h2
  simpa using h2

/-- A string whose data is a cons is not the empty string. -/
theorem str_ne_empty_of_data_cons {s : String} {c : Char} {t : List Char}
    (h : s.data = c :: t) : s ≠ "" := by
  intro he
  subst he
  exact List.noConfusion h

/-- A string whose data is nil is the empty string. -/
theorem str_eq_empty_of_data_nil {s : String} (h : s.data = []) : s = "" :=
  (mk_eq_of_data h.symm).symm.trans rfl

/-- C6 (amended): for a non-empty zone name and components that neither
start nor end in a comma or space (missing begin-location read as empty
text), the label equals the non-empty components joined with `", "`; the
general claim fails when the middle component is empty, see the
counterexample. -/
theorem locationLabel_amended :
    ∀ (loc : Option String) (n s : String),
      edgeClean (loc.getD ("")) = true → edgeClean n = true →
      edgeClean s = true → n ≠ "" →
      locationLabel loc n s = joinNonEmptyParts [loc.getD (""), n, s] := by
  intro loc n s hL hN hS hne
  have hnd : n.data ≠ [] := fun h => hne (str_eq_empty_of_data_nil h)
  unfold locationLabel joinNonEmptyParts
  cases hld : (loc.getD ("")).data with
  | cons a la =>
    cases hsd : s.data with
    | cons b lb =>
      have hLne : loc.getD ("") ≠ "" := str_ne_empty_of_data_cons hld
      have hSne : s ≠ "" := str_ne_empty_of_data_cons hsd
      have hsne : s.data ≠ [] := by rw [hsd]; exact List.cons_ne_nil b lb
      have hb1 : (loc.getD ("") == "") = false := beq_eq_false_iff_ne.mpr hLne
      have hb2 : (n == "") = false := beq_eq_false_iff_ne.mpr hne
      have hb3 : (s == "") = false := beq_eq_false_iff_ne.mpr hSne
      have hfil : [loc.getD (""), n, s].filter (fun p => !(p == "")) =
          [loc.getD (""), n, s] := by
        simp [List.filter, hb1, hb2, hb3]
      rw [hfil]
      apply mk_eq_of_data
      have hjd : (joinParts [loc.getD (""), n, s]).data =
          ((loc.getD ("") ++ ", " ++ n ++ ", " ++ s)).data := by
        simp [joinParts, String.data_append]
      rw [hjd]
      apply stripCS_id
      · intro c hc
        rw [show ((loc.getD ("") ++ ", " ++ n ++ ", " ++ s)).data.head? =
            (loc.getD ("")).data.head? by simp [String.data_append, hld]] at hc
        exact edgeClean_head hL c hc
      · intro c hc
        rw [show (loc.getD ("") ++ ", " ++ n ++ ", " ++ s).data
            = ((loc.getD ("")).data ++ [',', ' '] ++ n.data ++ [',', ' ']) ++ s.data by
          simp [String.data_append]] at hc
        rw [List.getLast?_append_of_ne_nil _ hsne] at hc
        exact edgeClean_last hS c hc
    | nil =>
      have hLne : loc.getD ("") ≠ "" := str_ne_empty_of_data_cons hld
      have hS0 : s = "" := str_eq_empty_of_data_nil hsd
      have hb1 : (loc.getD ("") == "") = false := beq_eq_false_iff_ne.mpr hLne
      have hb2 : (n == "") = false := beq_eq_false_iff_ne.mpr hne
      have hb3 : (s == "") = true := by rw [hS0]; rfl
      have hfil : [loc.getD (""), n, s].filter (fun p => !(p == "")) =
          [loc.getD (""), n] := by
        simp [List.filter, hb1, hb2, hb3]
      rw [hfil]
      apply mk_eq_of_data
      have hjd : (joinParts [loc.getD (""), n]).data =
          ((loc.getD ("") ++ ", " ++ n)).data := by
        simp [joinParts, String.data_append]
      rw [hjd]
      rw [show (loc.getD ("") ++ ", " ++ n ++ ", " ++ s).data
          = ((loc.getD ("") ++ ", " ++ n).data) ++ [',', ' '] by
        simp [String.data_append, hsd]]
      apply stripCS_right
      · intro c hc
        rw [show (loc.getD ("") ++ ", " ++ n).data.head? =
            (loc.getD ("")).data.head? by simp [String.data_append, hld]] at hc
        exact edgeClean_head hL c hc
      · intro c hc
        rw [show (loc.getD ("") ++ ", " ++ n).data
            = ((loc.getD ("")).data ++ [',', ' ']) ++ n.data by
          simp [String.data_append]] at hc
        rw [List.getLast?_append_of_ne_nil _ hnd] at hc
        exact edgeClean_last hN c hc
  | nil =>
    cases hsd : s.data with
    | cons b lb =>
      have hL0 : loc.getD ("") = "" := str_eq_empty_of_data_nil hld
      have hSne : s ≠ "" := str_ne_empty_of_data_cons hsd
      have hsne : s.data ≠ [] := by rw [hsd]; exact List.cons_ne_nil b lb
      have hb1 : (loc.getD ("") == "") = true := by rw [hL0]; rfl
      have hb2 : (n == "") = false := beq_eq_false_iff_ne.mpr hne
      have hb3 : (s == "") = false := beq_eq_false_iff_ne.mpr hSne
      have hfil : [loc.getD (""), n, s].filter (fun p => !(p == "")) = [n, s] := by
        simp [List.filter, hb1, hb2, hb3]
      rw [hfil]
      apply mk_eq_of_data
      have hjd : (joinParts [n, s]).data = ((n ++ ", " ++ s)).data := by
        simp [joinParts, String.data_append]
      rw [hjd]
      rw [show (loc.getD ("") ++ ", " ++ n ++ ", " ++ s).data
          = [',', ' '] ++ ((n ++ ", " ++ s)).data by
        simp [String.data_append, hld]]
      apply stripCS_left
      · intro c hc
        cases hn : n.data with
        | nil => exact absurd hn hnd
        | cons x nt =>
          rw [show (n ++ ", " ++ s).data.head? = n.data.head? by
            simp [String.data_append, hn]] at hc
          exact edgeClean_head hN c hc
      · intro c hc
        rw [show (n ++ ", " ++ s).data = (n.data ++ [',', ' ']) ++ s.data by
          simp [String.data_append]] at hc
        rw [List.getLast?_append_of_ne_nil _ hsne] at hc
        exact edgeClean_last hS c hc
    | nil =>
      have hL0 : loc.getD ("") = "" := str_eq_empty_of_data_nil hld
      have hS0 : s = "" := str_eq_empty_of_data_nil hsd
      have hb1 : (loc.getD ("") == "") = true := by rw [hL0]; rfl
      have hb2 : (n == "") = false := beq_eq_false_iff_ne.mpr hne
      have hb3 : (s == "") = true := by rw [hS0]; rfl
      have hfil : [loc.getD (""), n, s].filter (fun p => !(p == "")) = [n] := by
        simp [List.filter, hb1, hb2, hb3]
      rw [hfil]
      apply mk_eq_of_data
      have hjd : (joinParts [n]).data = n.data := by simp [joinParts]
      rw [hjd]
      rw [show (loc.getD ("") ++ ", " ++ n ++ ", " ++ s).data
          = [',', ' '] ++ n.data ++ [',', ' '] by
        simp [String.data_append, hld, hsd]]
      apply stripCS_both
      · exact edgeClean_head hN
      · exact edgeClean_last hN

/-- Counterexample to C6 as stated: with a non-empty begin-location, an
empty zone name and a non-empty state, the built label keeps the doubled
separator around the empty middle component, so it differs from the
join of the non-empty parts. -/
theorem locationLabel_counterexample :
    locationLabel (some ("SPRINGFIELD")) ("") ("IL") = "SPRINGFIELD, , IL" ∧
    joinNonEmptyParts [("SPRINGFIELD"), (""), ("IL")] = "SPRINGFIELD, IL" ∧
    ("SPRINGFIELD, , IL" : String) ≠ "SPRINGFIELD, IL" := by decide

/-- Witness for C6 (amended): the claim instance — empty begin-location,
zone name Cook, state IL — labels as Cook, IL. -/
theorem locationLabel_amended_witness :
    locationLabel (some ("")) ("Cook") ("IL") = "Cook, IL" := by
  have h := locationLabel_amended (some ("")) ("Cook") ("IL")
    (by decide) (by decide) (by decide) (by decide)
  rw [h]
  decide

/-- C7 (amended): after the Location Normalizer the state, zone-type and
zone-name columns are unordered categories; the zone-type code C maps to
County, Z to Zone, and any other code (missing included) becomes missing
rather than passing through; begin-location is whitespace-trimmed — but
the strip overwrites the categorical cast, so begin-location ends as a
plain object column, not a category. -/
theorem clean_location_claim_amended :
    (∀ c : SCol, (cleanState c).dtype = .category ∧
      (cleanState c).values = c.values) ∧
    (∀ c : SCol, (cleanCzName c).dtype = .category ∧
      (cleanCzName c).values = c.values) ∧
    (∀ c : SCol, (cleanCzType c).dtype = .category ∧
      (cleanCzType c).values = c.values.map czTypeLookup) ∧
    czTypeLookup (some ("C")) = some ("County") ∧
    czTypeLookup (some ("Z")) = some ("Zone") ∧
    (∀ v : Option String, v ≠ some ("C") → v ≠ some ("Z") →
      czTypeLookup v = none) ∧
    (∀ c : SCol, (cleanBeginLocation c).dtype = .object ∧
      (cleanBeginLocation c).values = c.values.map (Option.map pyStrip)) ∧
    pyStrip ("  Cook  ") = "Cook" := by
  refine ⟨fun c => ⟨rfl, rfl⟩, fun c => ⟨rfl, rfl⟩, fun c => ⟨rfl, rfl⟩,
    rfl, rfl, ?_, fun c => ⟨rfl, rfl⟩, by decide⟩
  intro v h1 h2
  cases v with
  | none => rfl
  | some s =>
    unfold czTypeLookup
    have hs1 : ¬ s = "C" := fun h => h1 (by rw [h])
    have hs2 : ¬ s = "Z" := fun h => h2 (by rw [h])
    simp [hs1, hs2]

/-- Counterexample to C7 as stated: the begin-location column comes out of
the Location Normalizer with object dtype, not category, because the
whitespace strip replaces the categorical column. -/
theorem cleanBeginLocation_counterexample :
    (cleanBeginLocation ⟨.object, [some (" X ")]⟩).dtype = Dtype.object ∧
    Dtype.object ≠ Dtype.category := by decide

/-- Witness for C7 (amended): the unmapped zone-type code Q becomes
missing. -/
theorem clean_location_claim_witness :
    czTypeLookup (some ("Q")) = none :=
  clean_location_claim_amended.2.2.2.2.2.1 (some ("Q")) (by decide) (by decide)

/-- A fallible column loop whose every step succeeds is the plain map of
the step results. -/
theorem mapE_eq_map_of_ok {α β : Type} (f : α → Except PyErr β) (g : α → β)
    (l : List α) (h : ∀ a ∈ l, f a = .ok (g a)) :
    mapE f l = .ok (l.map g) := by
  induction l with
  | nil => rfl
  | cons x t ih =>
    have hx := h x (List.mem_cons_self x t)
    have ht := ih (fun a ha => h a (List.mem_cons_of_mem x ha))
    simp [mapE, hx, ht, Except.bind]
    rfl

/-- The `Int64` cast succeeds with the described result on castable
cells. -/
theorem astypeInt64Cell_ok {v : CellVal} (h : int64Castable v = true) :
    astypeInt64Cell v = .ok (int64CastD v) := by
  cases v <;> simp_all [astypeInt64Cell, int64CastD, int64Castable]

/-- The damage parse of one cell succeeds with the described result when
`parse_damage` does not raise. -/
theorem parseDamageCell_ok {v : CellVal} {r : Option ℚ}
    (h : parse_damage v = .ok r) :
    parseDamageCell v = .ok (parseCellD v) := by
  unfold parseDamageCell parseCellD
  rw [h]
  rfl

/-- Re-parsing an already-parsed damage cell returns it unchanged. -/
theorem parsedCell_reparse (r : Option ℚ) :
    parseDamageCell (parsedCell r) = .ok (parsedCell r) := by
  cases r <;> rfl

/-- C9: the idempotent subset of the normalizers is a no-op on an
already-cleaned record set: a category cast applied twice equals the cast
applied once (both column flavours), re-parsing a damage column whose
cells are already parsed floats returns it unchanged, and the ordered
month-name categorical cast is idempotent on its values. -/
theorem idempotent_subset_claim :
    (∀ c : Col, astypeCategoryCol (astypeCategoryCol c) = astypeCategoryCol c) ∧
    (∀ c : SCol, astypeCategoryS (astypeCategoryS c) = astypeCategoryS c) ∧
    (∀ (n : String) (d : Dtype) (vs : List (Option ℚ)),
      parseDamageCol ⟨n, d, vs.map parsedCell⟩ = .ok ⟨n, .float64, vs.map parsedCell⟩) ∧
    (∀ v : Option String, monthNameCat (monthNameCat v) = monthNameCat v) := by
  refine ⟨fun c => rfl, fun c => rfl, ?_, ?_⟩
  · intro n d vs
    unfold parseDamageCol
    have h : mapE parseDamageCell (vs.map parsedCell) = .ok ((vs.map parsedCell).map id) := by
      apply mapE_eq_map_of_ok
      intro a ha
      rw [List.mem_map] at ha
      obtain ⟨r, _, hr⟩ := ha
      rw [← hr]
      simpa using parsedCell_reparse r
    rw [List.map_id] at h
    simp [h, Except.bind]
  · intro v
    cases v with
    | none => rfl
    | some s =>
      by_cases hc : s ∈ monthAbbrCategories
      · simp [monthNameCat, hc]
      · simp [monthNameCat, hc]

/-- The ID cast keeps the column name. -/
theorem idCastResult_name (c : Col) : (idCastResult c).name = c.name := by
  unfold idCastResult; split <;> rfl

/-- An ID column comes out of the ID cast with category dtype. -/
theorem idCastResult_cat {c : Col} (h : isIdCol (idCastResult c).name = true) :
    (idCastResult c).dtype = Dtype.category := by
  rw [idCastResult_name] at h
  unfold idCastResult
  rw [if_pos h]

/-- The ID-loop body succeeds with the described result on good
columns. -/
theorem idCastCol_ok {c : Col}
    (h : isIdCol c.name = true → c.values.all int64Castable = true) :
    idCastCol c = .ok (idCastResult c) := by
  unfold idCastCol idCastResult
  by_cases hid : isIdCol c.name = true
  · rw [if_pos hid, if_pos hid]
    have hm : mapE astypeInt64Cell c.values = .ok (c.values.map int64CastD) := by
      apply mapE_eq_map_of_ok
      intro v hv
      exact astypeInt64Cell_ok (List.all_eq_true.mp (h hid) v hv)
    simp [astypeInt64Col, hm, Except.bind, astypeCategoryCol]
  · rw [if_neg hid, if_neg hid]
    rfl

/-- The ID cast preserves which column names are present. -/
theorem hasCol_map_idCastResult (df : List Col) (n : String) :
    hasCol (df.map idCastResult) n = hasCol df n := by
  induction df with
  | nil => rfl
  | cons c t ih =>
    unfold hasCol at *
    simp only [List.map_cons, List.any_cons]
    rw [idCastResult_name, ih]

/-- A dropped column name is no longer present. -/
theorem hasCol_dropCol_self (df : List Col) (n : String) :
    hasCol (dropCol n df) n = false := by
  induction df with
  | nil => rfl
  | cons c t ih =>
    unfold hasCol dropCol at *
    simp only [List.filter_cons]
    by_cases hc : (c.name == n) = true
    · simp only [hc, Bool.not_true, if_false]
      exact ih
    · rw [Bool.not_eq_true] at hc
      simp only [hc, Bool.not_false, if_true, List.any_cons, hc, Bool.false_or]
      exact ih

/-- After the rename, the canonical EPISODE_ID name is present and
survives the drop of EPISODE_ID_y. -/
theorem hasCol_rename_target {df : List Col}
    (h : hasCol df ("EPISODE_ID_x") = true) :
    hasCol (dropCol ("EPISODE_ID_y")
      (renameCol ("EPISODE_ID_x") ("EPISODE_ID") df)) ("EPISODE_ID") = true := by
  unfold hasCol at *
  rw [List.any_eq_true] at *
  obtain ⟨c0, hc0, hn⟩ := h
  refine ⟨⟨("EPISODE_ID"), c0.dtype, c0.values⟩, ?_, rfl⟩
  rw [dropCol, List.mem_filter]
  constructor
  · rw [renameCol, List.mem_map]
    refine ⟨c0, hc0, ?_⟩
    rw [if_pos (by simpa using hn)]
  · rfl

/-- C8: when both join-induced episode-id columns are present the
Identifier Normalizer keeps the first under the canonical name
EPISODE_ID and discards EPISODE_ID_y; when the duplicate pair is absent
it runs without failing and without renaming; and every column whose name
ends in the ID suffix is cast first to nullable integers and then to an
unordered category. -/
theorem clean_id_cols_claim : ∀ df : List Col,
    (∀ c ∈ df, (isIdCol c.name = true ∨ c.name = "EPISODE_ID_x") →
      c.values.all int64Castable = true) →
    ((hasCol df ("EPISODE_ID_x") && hasCol df ("EPISODE_ID_y")) = true →
      clean_id_cols df = .ok
        ((dropCol ("EPISODE_ID_y")
          (renameCol ("EPISODE_ID_x") ("EPISODE_ID") df)).map idCastResult) ∧
      hasCol ((dropCol ("EPISODE_ID_y")
          (renameCol ("EPISODE_ID_x") ("EPISODE_ID") df)).map idCastResult)
        ("EPISODE_ID_y") = false ∧
      hasCol ((dropCol ("EPISODE_ID_y")
          (renameCol ("EPISODE_ID_x") ("EPISODE_ID") df)).map idCastResult)
        ("EPISODE_ID") = true) ∧
    ((hasCol df ("EPISODE_ID_x") && hasCol df ("EPISODE_ID_y")) = false →
      clean_id_cols df = .ok (df.map idCastResult)) ∧
    (∀ out, clean_id_cols df = .ok out →
      ∀ c ∈ out, isIdCol c.name = true → c.dtype = Dtype.category) := by
  intro df hg
  have hmain : ∀ df' : List Col,
      (∀ c ∈ df', isIdCol c.name = true → c.values.all int64Castable = true) →
      mapE idCastCol df' = .ok (df'.map idCastResult) :=
    fun df' hgood => mapE_eq_map_of_ok _ _ _
      (fun c hc => idCastCol_ok (fun hid => hgood c hc hid))
  have hgood1 : ∀ c ∈ dropCol ("EPISODE_ID_y")
      (renameCol ("EPISODE_ID_x") ("EPISODE_ID") df),
      isIdCol c.name = true → c.values.all int64Castable = true := by
    intro c hc hid
    rw [dropCol, List.mem_filter] at hc
    obtain ⟨hc1, _⟩ := hc
    rw [renameCol, List.mem_map] at hc1
    obtain ⟨c0, hc0, hren⟩ := hc1
    by_cases h0 : c0.name = "EPISODE_ID_x"
    · rw [if_pos h0] at hren
      have hv : c.values = c0.values := by rw [← hren]
      rw [hv]
      exact hg c0 hc0 (Or.inr h0)
    · rw [if_neg h0] at hren
      subst hren
      exact hg c0 hc0 (Or.inl hid)
  refine ⟨?_, ?_, ?_⟩
  · intro hxy
    refine ⟨?_, ?_, ?_⟩
    · unfold clean_id_cols
      rw [if_pos hxy]
      exact hmain _ hgood1
    · rw [hasCol_map_idCastResult]
      exact hasCol_dropCol_self _ _
    · rw [hasCol_map_idCastResult]
      exact hasCol_rename_target (Bool.and_eq_true_iff.mp hxy).1
  · intro hxy
    unfold clean_id_cols
    rw [if_neg (by rw [hxy]; exact Bool.false_ne_true)]
    exact hmain df (fun c hc hid => hg c hc (Or.inl hid))
  · intro out hout c hc hid
    revert hout
    unfold clean_id_cols
    by_cases hxy : (hasCol df ("EPISODE_ID_x") && hasCol df ("EPISODE_ID_y")) = true
    · rw [if_pos hxy, hmain _ hgood1]
      intro hout
      have ho : out = (dropCol ("EPISODE_ID_y")
          (renameCol ("EPISODE_ID_x") ("EPISODE_ID") df)).map idCastResult := by
        injection hout.symm
      subst ho
      rw [List.mem_map] at hc
      obtain ⟨c0, _, hc0⟩ := hc
      subst hc0
      exact idCastResult_cat hid
    · rw [if_neg hxy, hmain df (fun c hc hid => hg c hc (Or.inl hid))]
      intro hout
      have ho : out = df.map idCastResult := by injection hout.symm
      subst ho
      rw [List.mem_map] at hc
      obtain ⟨c0, _, hc0⟩ := hc
      subst hc0
      exact idCastResult_cat hid


/-- Witness for C8: a four-column merged frame with the duplicate pair,
an event-id column and a text column cleans to the renamed, de-duplicated,
ID-categorised frame. -/
theorem clean_id_cols_claim_witness :
    clean_id_cols idWitnessDf = .ok
      ((dropCol ("EPISODE_ID_y")
        (renameCol ("EPISODE_ID_x") ("EPISODE_ID") idWitnessDf)).map idCastResult) ∧
    hasCol ((dropCol ("EPISODE_ID_y")
        (renameCol ("EPISODE_ID_x") ("EPISODE_ID") idWitnessDf)).map idCastResult)
      ("EPISODE_ID_y") = false ∧
    hasCol ((dropCol ("EPISODE_ID_y")
        (renameCol ("EPISODE_ID_x") ("EPISODE_ID") idWitnessDf)).map idCastResult)
      ("EPISODE_ID") = true :=
  (clean_id_cols_claim idWitnessDf (by decide)).1 (by decide)

/-- The damage parse step keeps the column name. -/
theorem damageStepResult_name (c : Col) : (damageStepResult c).name = c.name := by
  unfold damageStepResult; split <;> rfl

/-- The damage parse step preserves which column names are present. -/
theorem hasCol_map_damageStepResult (df : List Col) (n : String) :
    hasCol (df.map damageStepResult) n = hasCol df n := by
  induction df with
  | nil => rfl
  | cons c t ih =>
    unfold hasCol at *
    simp only [List.map_cons, List.any_cons]
    rw [damageStepResult_name, ih]

/-- Dropping other columns preserves the presence of a name not in the
dropped set. -/
theorem hasCol_dropCols_of_not_dropped {ns : List String} {n : String}
    (h : ns.contains n = false) (df : List Col) :
    hasCol (dropCols ns df) n = hasCol df n := by
  induction df with
  | nil => rfl
  | cons c t ih =>
    unfold hasCol dropCols at *
    simp only [List.filter_cons]
    by_cases hk : ns.contains c.name = true
    · have hc : (c.name == n) = false := by
        by_cases he : c.name = n
        · rw [he] at hk
          rw [h] at hk
          exact Bool.noConfusion hk
        · exact beq_eq_false_iff_ne.mpr he
      simp only [hk, Bool.not_true, if_false, List.any_cons, hc, Bool.false_or]
      exact ih
    · rw [Bool.not_eq_true] at hk
      simp only [hk, Bool.not_false, if_true, List.any_cons]
      rw [ih]

/-- Appending one column adds exactly its name. -/
theorem hasCol_append_single (l : List Col) (c : Col) (n : String) :
    hasCol (l ++ [c]) n = (hasCol l n || (c.name == n)) := by
  unfold hasCol
  rw [List.any_append]
  simp

/-- A map that fixes every element of a list fixes the list. -/
theorem map_eq_self_of {α : Type} {l : List α} {f : α → α}
    (h : ∀ a ∈ l, f a = a) : l.map f = l := by
  induction l with
  | nil => rfl
  | cons x t ih =>
    rw [List.map_cons, h x (List.mem_cons_self x t),
      ih (fun a ha => h a (List.mem_cons_of_mem x ha))]

/-- The per-column damage step succeeds with the described result when
the needed parses succeed. -/
theorem damageStepCol_ok {c : Col}
    (h : damage_amount_cols.contains c.name = true →
      ∀ v ∈ c.values, ∃ r, parse_damage v = .ok r) :
    damageStepCol c = .ok (damageStepResult c) := by
  unfold damageStepCol damageStepResult
  by_cases hin : damage_amount_cols.contains c.name = true
  · rw [if_pos hin, if_pos hin]
    have hm : mapE parseDamageCell c.values = .ok (c.values.map parseCellD) := by
      apply mapE_eq_map_of_ok
      intro v hv
      obtain ⟨r, hr⟩ := h hin v hv
      exact parseDamageCell_ok hr
    simp [parseDamageCol, hm, Except.bind]
  · rw [if_neg hin, if_neg hin]
    rfl

/-- C10: the Damage Normalizer parses a damage column only when it is
present, creates TOTAL_DAMAGE exactly when both damage columns are
present in an input that does not already carry one, and completes
without error — returning just the noise-dropped frame — when both damage
columns are absent. -/
theorem clean_damage_cols_claim : ∀ df : List Col,
    (∀ c ∈ df, damage_amount_cols.contains c.name = true →
      ∀ v ∈ c.values, (parse_damage v).isOk = true) →
    hasCol df ("TOTAL_DAMAGE") = false →
    clean_damage_cols df = .ok (cleanDamageResult df) ∧
    hasCol (cleanDamageResult df) ("TOTAL_DAMAGE") =
      (hasCol df ("DAMAGE_CROPS") && hasCol df ("DAMAGE_PROPERTY")) ∧
    ((hasCol df ("DAMAGE_CROPS") || hasCol df ("DAMAGE_PROPERTY")) = false →
      cleanDamageResult df = dropCols fatalityNoiseCols df) := by
  intro df hg hnt
  have hex : ∀ v : CellVal, (parse_damage v).isOk = true →
      ∃ r, parse_damage v = .ok r := by
    intro v hv
    cases hpv : parse_damage v with
    | ok r => exact ⟨r, rfl⟩
    | error e => rw [hpv] at hv; exact Bool.noConfusion hv
  have hmapE : mapE damageStepCol (dropCols fatalityNoiseCols df) =
      .ok ((dropCols fatalityNoiseCols df).map damageStepResult) := by
    apply mapE_eq_map_of_ok
    intro c hc
    exact damageStepCol_ok
      (fun hin v hv => hex v (hg c (List.mem_filter.mp hc).1 hin v hv))
  have hC : hasCol ((dropCols fatalityNoiseCols df).map damageStepResult)
      ("DAMAGE_CROPS") = hasCol df ("DAMAGE_CROPS") := by
    rw [hasCol_map_damageStepResult, hasCol_dropCols_of_not_dropped (by decide)]
  have hP : hasCol ((dropCols fatalityNoiseCols df).map damageStepResult)
      ("DAMAGE_PROPERTY") = hasCol df ("DAMAGE_PROPERTY") := by
    rw [hasCol_map_damageStepResult, hasCol_dropCols_of_not_dropped (by decide)]
  have hT : hasCol ((dropCols fatalityNoiseCols df).map damageStepResult)
      ("TOTAL_DAMAGE") = hasCol df ("TOTAL_DAMAGE") := by
    rw [hasCol_map_damageStepResult, hasCol_dropCols_of_not_dropped (by decide)]
  have hcondeq : damage_amount_cols.all
      (fun n => hasCol ((dropCols fatalityNoiseCols df).map damageStepResult) n)
      = (hasCol df ("DAMAGE_CROPS") && hasCol df ("DAMAGE_PROPERTY")) := by
    simp [damage_amount_cols, List.all_cons, List.all_nil, hC, hP]
  have hbind : ∀ (k : List Col → Except PyErr (List Col)) (L : List Col),
      (Except.ok L >>= k) = k L := fun k L => rfl
  refine ⟨?_, ?_, ?_⟩
  · unfold clean_damage_cols
    rw [hmapE]
    simp only [hbind]
    unfold cleanDamageResult
    by_cases hcond : damage_amount_cols.all
        (fun n => hasCol ((dropCols fatalityNoiseCols df).map damageStepResult) n) = true
    · rw [if_pos hcond, if_pos hcond]
      rfl
    · rw [if_neg hcond, if_neg hcond]
      rfl
  · unfold cleanDamageResult
    by_cases hcond : damage_amount_cols.all
        (fun n => hasCol ((dropCols fatalityNoiseCols df).map damageStepResult) n) = true
    · rw [if_pos hcond, hasCol_append_single, hT, hnt]
      rw [← hcondeq, hcond]
      rfl
    · rw [if_neg hcond, hT, hnt]
      rw [← hcondeq]
      cases h2 : damage_amount_cols.all
          (fun n => hasCol ((dropCols fatalityNoiseCols df).map damageStepResult) n) with
      | true => exact absurd h2 hcond
      | false => rfl
  · intro habs
    have hCf : hasCol df ("DAMAGE_CROPS") = false := by
      cases hcc : hasCol df ("DAMAGE_CROPS") with
      | false => rfl
      | true => rw [hcc] at habs; simp at habs
    have hPf : hasCol df ("DAMAGE_PROPERTY") = false := by
      cases hpp : hasCol df ("DAMAGE_PROPERTY") with
      | false => rfl
      | true => rw [hpp] at habs; simp at habs
    have hmapid : (dropCols fatalityNoiseCols df).map damageStepResult =
        dropCols fatalityNoiseCols df := by
      apply map_eq_self_of
      intro c hc
      have hcd : c ∈ df := (List.mem_filter.mp hc).1
      have h1 : (c.name == "DAMAGE_CROPS") = false := by
        have h0 := hCf
        unfold hasCol at h0
        rw [List.any_eq_false] at h0
        have hcn := h0 c hcd
        cases hb : (c.name == "DAMAGE_CROPS") with
        | false => rfl
        | true => exact absurd hb hcn
      have h2 : (c.name == "DAMAGE_PROPERTY") = false := by
        have h0 := hPf
        unfold hasCol at h0
        rw [List.any_eq_false] at h0
        have hcn := h0 c hcd
        cases hb : (c.name == "DAMAGE_PROPERTY") with
        | false => rfl
        | true => exact absurd hb hcn
      have hne1 : c.name ≠ "DAMAGE_CROPS" := by
        intro he; rw [he] at h1; simp at h1
      have hne2 : c.name ≠ "DAMAGE_PROPERTY" := by
        intro he; rw [he] at h2; simp at h2
      have hcn : damage_amount_cols.contains c.name = false := by
        simp [damage_amount_cols, hne1, hne2]
      unfold damageStepResult
      rw [hcn]
      simp
    unfold cleanDamageResult
    rw [hmapid]
    have hc0 : hasCol (dropCols fatalityNoiseCols df) ("DAMAGE_CROPS") = false := by
      rw [hasCol_dropCols_of_not_dropped (by decide)]
      exact hCf
    have hfalse : damage_amount_cols.all
        (fun n => hasCol (dropCols fatalityNoiseCols df) n) = false := by
      simp [damage_amount_cols, List.all_cons, hc0]
    rw [hfalse]
    simp

/-- Witness for C10: a frame with both damage columns and a
fatality-noise column cleans successfully and gains TOTAL_DAMAGE. -/
theorem clean_damage_cols_claim_witness :
    clean_damage_cols damageWitnessDf = .ok (cleanDamageResult damageWitnessDf) ∧
    hasCol (cleanDamageResult damageWitnessDf) ("TOTAL_DAMAGE") =
      (hasCol damageWitnessDf ("DAMAGE_CROPS") &&
        hasCol damageWitnessDf ("DAMAGE_PROPERTY")) := by
  have h := clean_damage_cols_claim damageWitnessDf (by decide) (by decide)
  exact ⟨h.1, h.2.1⟩

end StormEvents
